import Mathlib

/-!
Verification of the deal-pipeline core of the ProBrosCRMApp repository:
the kanban board's optimistic status-update protocol (`handleDragEnd`),
the deals fetcher (`fetchDeals`), the column partitioner (`dealsByStatus`),
and the static status/color/column tables, shallowly embedded from
`src/components/KanbanBoard.tsx` (found in `src/components/KanbanCard.tsx`
of the snapshot) and `src/types.ts` (the `Deal` / `DealStatus` model).
-/

/-- The closed 8-value `DealStatus` union from `src/types.ts`. -/
inductive DealStatus where
  | lead
  | contacted
  | qualified
  | quotes_sent
  | trial_order
  | active_customer
  | retained_growing
  | lost_customer
  deriving DecidableEq

/-- The wire string of each status (the TS union is a union of these
string literals; interpolation of a status in a template literal yields it). -/
def statusId : DealStatus → String
  | .lead => "lead"
  | .contacted => "contacted"
  | .qualified => "qualified"
  | .quotes_sent => "quotes_sent"
  | .trial_order => "trial_order"
  | .active_customer => "active_customer"
  | .retained_growing => "retained_growing"
  | .lost_customer => "lost_customer"

/-- The eight statuses in their fixed declaration order. -/
def allStatuses : List DealStatus :=
  [.lead, .contacted, .qualified, .quotes_sent, .trial_order,
   .active_customer, .retained_growing, .lost_customer]

/-- The `Deal` entity from `src/types.ts` (fields not used by the kanban
core are denormalized pass-through data; optional TS fields are `Option`). -/
structure Deal where
  id : Nat
  title : String
  value : Int
  status : DealStatus
  color : Option String
  company : Option String
  owner : Option String
  deriving DecidableEq

/-- `KanbanColumnDef` from `src/types.ts`. -/
structure KanbanColumnDef where
  id : DealStatus
  label : String
  deriving DecidableEq

/-- The `COLUMNS` constant of `KanbanBoard.tsx`. -/
def COLUMNS : List KanbanColumnDef :=
  [⟨.lead, "Lead"⟩,
   ⟨.contacted, "Contacted"⟩,
   ⟨.qualified, "Qualified"⟩,
   ⟨.quotes_sent, "Quotes / Pricing Sent"⟩,
   ⟨.trial_order, "Trial Order"⟩,
   ⟨.active_customer, "Active Customer"⟩,
   ⟨.retained_growing, "Retained / Growing"⟩,
   ⟨.lost_customer, "Lost Customer"⟩]

/-- The `STATUS_COLORS` record of `KanbanBoard.tsx`: total over the closed
`DealStatus` enumeration. -/
def STATUS_COLORS : DealStatus → String
  | .lead => "#3b82f6"
  | .contacted => "#8b5cf6"
  | .qualified => "#6366f1"
  | .quotes_sent => "#eab308"
  | .trial_order => "#f97316"
  | .active_customer => "#10b981"
  | .retained_growing => "#22c55e"
  | .lost_customer => "#ef4444"

/-- JS `STATUS_COLORS[newStatus] || originalDeal.color`: a string is falsy
exactly when it is empty, in which case the fallback is kept. -/
def statusColorOrFallback (newStatus : DealStatus) (fallback : Option String) :
    Option String :=
  if STATUS_COLORS newStatus = "" then fallback else some (STATUS_COLORS newStatus)

/-- A `@hello-pangea/dnd` drop location: a column id and an index inside it.
Droppables exist only for the eight `COLUMNS`, so the `droppableId` string is
one of the eight status ids. -/
structure DropLocation where
  droppableId : DealStatus
  index : Nat
  deriving DecidableEq

/-- The `DropResult` delivered to `handleDragEnd`. `draggableId` is
`String(deal.id)`, which `handleDragEnd` parses back with `parseInt`;
the round trip is the identity on ids, so it is carried as a `Nat`.
`destination` is `null` when the card is dropped outside every column. -/
structure DropResult where
  destination : Option DropLocation
  source : DropLocation
  draggableId : Nat
  deriving DecidableEq

/-- JS `Array.prototype.findIndex` over a list, with `none` standing for the
`-1` not-found result (the `-1` case is tested and handled right away in
`handleDragEnd`). -/
def findIndexP (p : α → Bool) : List α → Option Nat
  | [] => none
  | a :: l => if p a then some 0 else (findIndexP p l).map (· + 1)

/-- Everything the `handleDragEnd` closure still holds when its `await`
suspends: the `deals` state snapshot captured at render time, the computed
`dealIndex`, the saved `originalDeal`, and the decoded stages and id. -/
structure Pending where
  snapshot : List Deal
  dealIndex : Nat
  originalDeal : Deal
  oldStatus : DealStatus
  newStatus : DealStatus
  dealId : Nat
  deriving DecidableEq

/-- The synchronous part of `handleDragEnd` up to (not including) the
`await api.patch` call: the null-destination guard, the same-column
same-index guard, `parseInt`/`findIndex`, capture of `originalDeal`,
and the optimistic `setDeals(updatedDeals)` write. Returns `none` when
the function early-returns (no remote call is issued), otherwise the
optimistically updated store paired with the closure's `Pending` data. -/
def applyPhase (deals : List Deal) (result : DropResult) :
    Option (List Deal × Pending) :=
  match result.destination with
  | none => none
  | some destination =>
    if destination.droppableId = result.source.droppableId ∧
        destination.index = result.source.index then
      none
    else
      let dealId := result.draggableId
      let newStatus := destination.droppableId
      let oldStatus := result.source.droppableId
      match findIndexP (fun d => d.id == dealId) deals with
      | none => none
      | some dealIndex =>
        match deals[dealIndex]? with
        | none => none
        | some originalDeal =>
          let updatedDeal : Deal :=
            { originalDeal with
              status := newStatus
              color := statusColorOrFallback newStatus originalDeal.color }
          some (deals.set dealIndex updatedDeal,
                ⟨deals, dealIndex, originalDeal, oldStatus, newStatus, dealId⟩)

/-- The store written by the `catch` branch: `[...deals]` copies the *closure*
snapshot (not the store current at resolution time), then
`rolledBackDeals[dealIndex] = originalDeal`. -/
def resolveFailureStore (p : Pending) : List Deal :=
  p.snapshot.set p.dealIndex p.originalDeal

/-- The store after the remote call resolves: on success the optimistic store
is left in place (the `try` branch writes no store), on failure the rollback
store of the `catch` branch is installed. `deals` is the store current at
resolution time; the code ignores it on both branches. -/
def resolveMove (deals : List Deal) (p : Pending) (remoteOk : Bool) : List Deal :=
  if remoteOk then deals else resolveFailureStore p

/-- The transient error banner text set by the `catch` branch:
`Failed to move deal. Reverted to ${oldStatus}.` -/
def surfacedError (oldStatus : DealStatus) : String :=
  "Failed to move deal. Reverted to " ++ statusId oldStatus ++ "."

/-- Observable outcome of one full `handleDragEnd` run: the final store,
how many `api.patch` calls were issued, how many times `onStatsRefresh`
fired, and the error banner value. -/
structure MoveOutcome where
  deals : List Deal
  remoteCalls : Nat
  statsRefreshes : Nat
  error : Option String
  deriving DecidableEq

/-- One sequential (non-interleaved) execution of `handleDragEnd`:
the synchronous phase, then the single `await api.patch` whose result is
`remoteOk`, then the `try`/`catch` resolution against the unchanged store. -/
def handleDragEnd (deals : List Deal) (result : DropResult) (remoteOk : Bool) :
    MoveOutcome :=
  match applyPhase deals result with
  | none => ⟨deals, 0, 0, none⟩
  | some (updatedDeals, p) =>
    if remoteOk then
      ⟨resolveMove updatedDeals p true, 1, 1, none⟩
    else
      ⟨resolveMove updatedDeals p false, 1, 0, some (surfacedError p.oldStatus)⟩

/-- `fetchDeals` of `KanbanBoard.tsx`: `response` is `some` the delivered
collection on success and `none` on failure. Returns the new store, the new
error banner value (the banner renders a Retry button that re-invokes
`fetchDeals`), and the argument passed to `onDealsCountChange` (if called). -/
def fetchDeals (deals : List Deal) (response : Option (List Deal)) :
    List Deal × Option String × Option Nat :=
  match response with
  | some dealsData => (dealsData, none, some dealsData.length)
  | none => (deals, some "Failed to load deals. Please try again.", none)

/-- The `dealsByStatus` reduce of `KanbanBoard.tsx`, as the association list
its key-insertion order builds (all eight keys are fresh and distinct). -/
def dealsByStatus (deals : List Deal) : List (DealStatus × List Deal) :=
  COLUMNS.foldl
    (fun acc col => acc ++ [(col.id, deals.filter (fun deal => deal.status == col.id))])
    []

/-- Two overlapping drag operations, in the interleaving named by §4.3's
concurrency guard: first drag's optimistic apply, then second drag's
optimistic apply, then the first drag's remote *failure* resolution. Returns
the final store (or `none` when either drag early-returns). -/
def interleavedScenario (deals : List Deal) (rA rB : DropResult) :
    Option (List Deal) :=
  match applyPhase deals rA with
  | none => none
  | some (s1, pA) =>
    match applyPhase s1 rB with
    | none => none
    | some (s2, _) => some (resolveMove s2 pA false)

/-- The store visible after both optimistic applies, before any resolution. -/
def midFlightScenario (deals : List Deal) (rA rB : DropResult) :
    Option (List Deal) :=
  match applyPhase deals rA with
  | none => none
  | some (s1, _) => (applyPhase s1 rB).map Prod.fst

/-! Concrete fixtures used by counterexamples and witnesses. -/

/-- The deal of end-to-end scenario 1 of the spec: id 1, status lead, color #3b82f6. -/
def dealLead1 : Deal := ⟨1, "Acme deal", 100, .lead, some "#3b82f6", none, none⟩

/-- A second deal, also in the lead stage. -/
def dealLead2 : Deal := ⟨2, "Globex deal", 200, .lead, some "#3b82f6", none, none⟩

/-- A third deal, in the qualified stage. -/
def dealQualified3 : Deal := ⟨3, "Initech deal", 300, .qualified, some "#6366f1", none, none⟩

/-- A three-deal store with statuses [lead, lead, qualified]. -/
def demoDeals : List Deal := [dealLead1, dealLead2, dealQualified3]

/-- Drag of card 1 from the lead column to the qualified column. -/
def dropLeadToQualified : DropResult := ⟨some ⟨.qualified, 0⟩, ⟨.lead, 0⟩, 1⟩

/-- Drag of card 1 from the lead column to the contacted column. -/
def dropLeadToContacted : DropResult := ⟨some ⟨.contacted, 0⟩, ⟨.lead, 0⟩, 1⟩

/-- Drag of card 1 within the lead column, from index 0 to index 1. -/
def dropSameColumnNewIndex : DropResult := ⟨some ⟨.lead, 1⟩, ⟨.lead, 0⟩, 1⟩

/-- Drag of card 1 dropped back onto its own position (same column, same index). -/
def dropSameSpot : DropResult := ⟨some ⟨.lead, 0⟩, ⟨.lead, 0⟩, 1⟩

/-- Drag of card 1 dropped outside every column (`destination` is null). -/
def dropCancelled : DropResult := ⟨none, ⟨.lead, 0⟩, 1⟩

/-- Drag whose draggable id (99) matches no deal in the store. -/
def dropMissingDeal : DropResult := ⟨some ⟨.lead, 0⟩, ⟨.contacted, 0⟩, 99⟩

/-- Drag of card 2 from the lead column to the contacted column. -/
def dropSecondLeadToContacted : DropResult := ⟨some ⟨.contacted, 0⟩, ⟨.lead, 1⟩, 2⟩

/-! Helper lemmas about the embedded operations. -/

lemma set_of_getElem? {α : Type} (l : List α) (i : Nat) (a : α)
    (h : l[i]? = some a) : l.set i a = l := by
  induction l generalizing i with
  | nil => simp at h
  | cons b t ih =>
    cases i with
    | zero => simp at h; simp [h]
    | succ n =>
      simp only [List.getElem?_cons_succ] at h
      simp [List.set_cons_succ, ih n h]

lemma findIndexP_none {α : Type} (p : α → Bool) (l : List α)
    (h : ∀ a ∈ l, p a = false) : findIndexP p l = none := by
  induction l with
  | nil => rfl
  | cons a t ih =>
    simp [findIndexP, h a (by simp), ih (fun x hx => h x (by simp [hx]))]

lemma findIndexP_some {α : Type} {p : α → Bool} {l : List α} {i : Nat}
    (h : findIndexP p l = some i) : ∃ a, l[i]? = some a ∧ p a = true := by
  induction l generalizing i with
  | nil => simp [findIndexP] at h
  | cons b t ih =>
    by_cases hb : p b
    · simp [findIndexP, hb] at h
      exact h ▸ ⟨b, by simp, hb⟩
    · simp [findIndexP, hb] at h
      obtain ⟨j, hj, rfl⟩ := h
      obtain ⟨a, ha, hpa⟩ := ih hj
      exact ⟨a, by simpa using ha, hpa⟩

lemma find?_set_of_findIndexP {α : Type} {p : α → Bool} {l : List α} {i : Nat}
    (a : α) (hfind : findIndexP p l = some i) (hpa : p a = true) :
    (l.set i a).find? p = some a := by
  induction l generalizing i with
  | nil => simp [findIndexP] at hfind
  | cons b t ih =>
    by_cases hb : p b
    · simp [findIndexP, hb] at hfind
      subst hfind
      simp [List.find?_cons_of_pos _ hpa]
    · simp [findIndexP, hb] at hfind
      obtain ⟨j, hj, rfl⟩ := hfind
      simp [List.set_cons_succ, List.find?_cons_of_neg _ hb, ih hj]

lemma statusColorOrFallback_eq (s : DealStatus) (c : Option String) :
    statusColorOrFallback s c = some (STATUS_COLORS s) := by
  cases s <;> rfl

/-- Inversion of the synchronous phase: when `applyPhase` issues a remote call,
it recovers every ingredient the closure retains. -/
lemma applyPhase_eq_some {deals : List Deal} {result : DropResult}
    {pr : List Deal × Pending} (h : applyPhase deals result = some pr) :
    ∃ destination, result.destination = some destination ∧
      ¬(destination.droppableId = result.source.droppableId ∧
        destination.index = result.source.index) ∧
      pr.2.snapshot = deals ∧
      pr.2.oldStatus = result.source.droppableId ∧
      pr.2.newStatus = destination.droppableId ∧
      pr.2.dealId = result.draggableId ∧
      findIndexP (fun d => d.id == result.draggableId) deals = some pr.2.dealIndex ∧
      deals[pr.2.dealIndex]? = some pr.2.originalDeal ∧
      pr.1 = deals.set pr.2.dealIndex
        { pr.2.originalDeal with
          status := destination.droppableId
          color := statusColorOrFallback destination.droppableId pr.2.originalDeal.color } := by
  obtain ⟨dest, src, dragId⟩ := result
  cases dest with
  | none => simp [applyPhase] at h
  | some destination =>
    dsimp only [applyPhase] at h
    by_cases hguard : destination.droppableId = src.droppableId ∧
        destination.index = src.index
    · rw [if_pos hguard] at h
      simp at h
    · rw [if_neg hguard] at h
      split at h
      · simp at h
      · split at h
        · simp at h
        · injection h with h
          subst h
          exact ⟨destination, rfl, hguard, rfl, rfl, rfl, rfl, by assumption,
            by assumption, rfl⟩

lemma mem_allStatuses (s : DealStatus) : s ∈ allStatuses := by
  cases s <;> decide

lemma allStatuses_nodup : allStatuses.Nodup := by decide

lemma dealsByStatus_eq_map (deals : List Deal) :
    dealsByStatus deals
      = allStatuses.map (fun s => (s, deals.filter (fun d => d.status == s))) := rfl

lemma join_filter_cons_perm (ss : List DealStatus) (d : Deal) (rest : List Deal)
    (hnd : ss.Nodup) (hmem : d.status ∈ ss) :
    ((ss.map (fun s => List.filter (fun x => x.status == s) (d :: rest))).flatten).Perm
      (d :: (ss.map (fun s => List.filter (fun x => x.status == s) rest)).flatten) := by
  induction ss with
  | nil => simp at hmem
  | cons s ss ih =>
    obtain ⟨hs, hnd'⟩ := List.nodup_cons.mp hnd
    by_cases h : d.status = s
    · have htail : ss.map (fun t => List.filter (fun x => x.status == t) (d :: rest))
          = ss.map (fun t => List.filter (fun x => x.status == t) rest) := by
        apply List.map_congr_left
        intro t ht
        have hne : (d.status == t) = false := by
          rw [beq_eq_false_iff_ne]
          intro hEq
          rw [← hEq, h] at ht
          exact hs ht
        simp [List.filter_cons, hne]
      rw [List.map_cons, List.map_cons, htail]
      simp [List.filter_cons, h]
    · have hhead : List.filter (fun x => x.status == s) (d :: rest)
          = List.filter (fun x => x.status == s) rest := by
        have hne : (d.status == s) = false := beq_eq_false_iff_ne.mpr h
        simp [List.filter_cons, hne]
      have hmem' : d.status ∈ ss := by
        rcases List.mem_cons.mp hmem with h' | h'
        · exact absurd h' h
        · exact h'
      rw [List.map_cons, List.map_cons, hhead]
      simp only [List.flatten_cons]
      exact (List.Perm.append_left _ (ih hnd' hmem')).trans List.perm_middle

lemma join_filter_perm (l : List Deal) :
    ((allStatuses.map (fun s => List.filter (fun x => x.status == s) l)).flatten).Perm l := by
  induction l with
  | nil => simp
  | cons d rest ih =>
    exact (join_filter_cons_perm allStatuses d rest allStatuses_nodup
      (mem_allStatuses d.status)).trans (ih.cons d)

/-! Claim theorems. -/

/-- C1 counterexample: with a one-deal store whose deal sits in the lead
column, a drop back into the lead column at a *different* index (0 to 1) is
not a no-op — `handleDragEnd` issues the remote status-update call (and fires
the Stats Refresh Notifier when it succeeds), because the early-return guard
requires the destination index to equal the source index as well. -/
theorem sameColumnDifferentIndex_issues_remote_call :
    dealLead1.status = DealStatus.lead ∧
    dropSameColumnNewIndex.destination = some ⟨DealStatus.lead, 1⟩ ∧
    dropSameColumnNewIndex.source = ⟨DealStatus.lead, 0⟩ ∧
    (handleDragEnd [dealLead1] dropSameColumnNewIndex true).remoteCalls = 1 ∧
    (handleDragEnd [dealLead1] dropSameColumnNewIndex true).statsRefreshes = 1 := by
  decide

/-- C1 (amended): a drop whose destination column *and destination index* both
equal the source is a complete no-op: the store is returned byte-for-byte
identical, no remote call is issued, and the Stats Refresh Notifier never
fires. -/
theorem sameColumnSameIndex_drop_is_noop (deals : List Deal) (result : DropResult)
    (remoteOk : Bool) (destination : DropLocation)
    (hdest : result.destination = some destination)
    (hcol : destination.droppableId = result.source.droppableId)
    (hidx : destination.index = result.source.index) :
    handleDragEnd deals result remoteOk = ⟨deals, 0, 0, none⟩ := by
  have happ : applyPhase deals result = none := by
    unfold applyPhase; rw [hdest]
    exact if_pos ⟨hcol, hidx⟩
  unfold handleDragEnd; rw [happ]

/-- Witness for C1 (amended) at a concrete same-spot drop. -/
theorem sameColumnSameIndex_drop_is_noop_witness :
    handleDragEnd [dealLead1] dropSameSpot true = ⟨[dealLead1], 0, 0, none⟩ :=
  sameColumnSameIndex_drop_is_noop [dealLead1] dropSameSpot true
    ⟨DealStatus.lead, 0⟩ rfl rfl rfl

/-- C2: whenever the synchronous phase issued the remote call and that call
fails, the resolved store is exactly the pre-call store (so the entry for the
dragged deal has its pre-call status and pre-call color restored exactly), and
the Stats Refresh Notifier is not invoked. -/
theorem failed_move_restores_prior_state (deals : List Deal) (result : DropResult)
    (hcall : (applyPhase deals result).isSome = true) :
    (handleDragEnd deals result false).deals = deals ∧
    (handleDragEnd deals result false).statsRefreshes = 0 := by
  obtain ⟨pr, happ⟩ := Option.isSome_iff_exists.mp hcall
  obtain ⟨updated, p⟩ := pr
  obtain ⟨dest, hdest, hguard, hsnap, hold, hnew, hid, hidx, hget, hupd⟩ :=
    applyPhase_eq_some happ
  unfold handleDragEnd
  rw [happ]
  refine ⟨?_, rfl⟩
  show resolveMove updated p false = deals
  show p.snapshot.set p.dealIndex p.originalDeal = deals
  rw [show p.snapshot = deals from hsnap]
  exact set_of_getElem? _ _ _ hget

/-- Witness for C2: scenario 2 of the spec — the lead-to-qualified move of
deal 1 fails remotely; the store is back to its initial value and the
notifier did not fire. -/
theorem failed_move_restores_prior_state_witness :
    (handleDragEnd [dealLead1] dropLeadToQualified false).deals = [dealLead1] ∧
    (handleDragEnd [dealLead1] dropLeadToQualified false).statsRefreshes = 0 :=
  failed_move_restores_prior_state [dealLead1] dropLeadToQualified (by decide)

/-- C3: whenever the synchronous phase issued the remote call and that call
succeeds, the store entry found for the dragged id carries the destination
status and its `STATUS_COLORS` color, and the Stats Refresh Notifier fires
exactly once. -/
theorem successful_move_commits_and_notifies_once (deals : List Deal)
    (result : DropResult) (destination : DropLocation)
    (hdest : result.destination = some destination)
    (hcall : (applyPhase deals result).isSome = true) :
    ((handleDragEnd deals result true).deals.find?
        (fun d => d.id == result.draggableId)).map (fun d => (d.status, d.color)) =
      some (destination.droppableId, some (STATUS_COLORS destination.droppableId)) ∧
    (handleDragEnd deals result true).statsRefreshes = 1 := by
  obtain ⟨pr, happ⟩ := Option.isSome_iff_exists.mp hcall
  obtain ⟨updated, p⟩ := pr
  obtain ⟨dest, hdest', hguard, hsnap, hold, hnew, hid, hidx, hget, hupd⟩ :=
    applyPhase_eq_some happ
  rw [hdest] at hdest'
  injection hdest' with hdest'
  subst hdest'
  unfold handleDragEnd
  rw [happ]
  refine ⟨?_, rfl⟩
  show ((resolveMove updated p true).find?
      (fun d => d.id == result.draggableId)).map (fun d => (d.status, d.color)) = _
  show (updated.find? (fun d => d.id == result.draggableId)).map
      (fun d => (d.status, d.color)) = _
  have horig : (p.originalDeal.id == result.draggableId) = true := by
    obtain ⟨a, ha, hpa⟩ := findIndexP_some hidx
    rw [hget] at ha
    injection ha with ha
    rw [ha]
    exact hpa
  rw [show updated = _ from hupd,
    find?_set_of_findIndexP _ hidx (by simpa using horig)]
  simp [statusColorOrFallback_eq]

/-- Witness for C3: scenario 1 of the spec — moving deal 1 from lead to
qualified succeeds; the entry becomes (qualified, #6366f1) and the notifier
fired once. -/
theorem successful_move_commits_and_notifies_once_witness :
    ((handleDragEnd [dealLead1] dropLeadToQualified true).deals.find?
        (fun d => d.id == (1 : Nat))).map (fun d => (d.status, d.color)) =
      some (DealStatus.qualified, some "#6366f1") ∧
    (handleDragEnd [dealLead1] dropLeadToQualified true).statsRefreshes = 1 :=
  successful_move_commits_and_notifies_once [dealLead1] dropLeadToQualified
    ⟨DealStatus.qualified, 0⟩ rfl (by decide)

/-- C4: the column partitioner's key list is exactly the eight pipeline
statuses in order (empty buckets included), every bucket holds exactly the
input deals bearing its key (as an in-order sublist of the input), and the
concatenation of all buckets is a permutation of the input. -/
theorem dealsByStatus_partition_spec (deals : List Deal) :
    ((dealsByStatus deals).map Prod.fst = allStatuses) ∧
    (∀ s bucket, (s, bucket) ∈ dealsByStatus deals →
      (∀ d, d ∈ bucket ↔ d ∈ deals ∧ d.status = s) ∧ bucket.Sublist deals) ∧
    (((dealsByStatus deals).map Prod.snd).flatten).Perm deals := by
  refine ⟨rfl, ?_, ?_⟩
  · rw [dealsByStatus_eq_map]
    intro s bucket hmem
    simp only [List.mem_map] at hmem
    obtain ⟨t, ht, heq⟩ := hmem
    injection heq with h1 h2
    subst h1
    subst h2
    refine ⟨fun d => ?_, List.filter_sublist _⟩
    simp [List.mem_filter]
  · rw [dealsByStatus_eq_map]
    have hsnd : (allStatuses.map
          (fun s => (s, deals.filter (fun d => d.status == s)))).map Prod.snd
        = allStatuses.map (fun s => deals.filter (fun d => d.status == s)) := by
      simp [List.map_map]
    rw [hsnd]
    exact join_filter_perm deals

/-- Witness for C4 on the [lead, lead, qualified] demo store, instantiating
the bucket clause at the lead bucket and deal 1. -/
theorem dealsByStatus_partition_spec_witness :
    ((dealsByStatus demoDeals).map Prod.fst = allStatuses) ∧
    (dealLead1 ∈ demoDeals.filter (fun d => d.status == DealStatus.lead) ↔
      dealLead1 ∈ demoDeals ∧ dealLead1.status = DealStatus.lead) ∧
    (((dealsByStatus demoDeals).map Prod.snd).flatten).Perm demoDeals :=
  ⟨(dealsByStatus_partition_spec demoDeals).1,
   ((dealsByStatus_partition_spec demoDeals).2.1 DealStatus.lead
      (demoDeals.filter (fun d => d.status == DealStatus.lead)) (by decide)).1 dealLead1,
   (dealsByStatus_partition_spec demoDeals).2.2⟩

/-- C5: a single `handleDragEnd` execution — whatever the remote outcome —
leaves every store entry whose id differs from the dragged id exactly where it
was and with all of its fields intact. -/
theorem moveDeal_frame_other_deals_unchanged (deals : List Deal)
    (result : DropResult) (remoteOk : Bool) (j : Nat) (d : Deal)
    (hj : deals[j]? = some d) (hd : d.id ≠ result.draggableId) :
    (handleDragEnd deals result remoteOk).deals[j]? = some d := by
  cases happ : applyPhase deals result with
  | none => unfold handleDragEnd; rw [happ]; exact hj
  | some pr =>
    obtain ⟨updated, p⟩ := pr
    obtain ⟨dest, hdest, hguard, hsnap, hold, hnew, hid, hidx, hget, hupd⟩ :=
      applyPhase_eq_some happ
    have horig : p.originalDeal.id = result.draggableId := by
      obtain ⟨a, ha, hpa⟩ := findIndexP_some hidx
      rw [hget] at ha
      injection ha with ha
      rw [ha]
      simpa using hpa
    have hne : p.dealIndex ≠ j := by
      intro hEq
      rw [hEq, hj] at hget
      injection hget with hget
      exact hd (by rw [hget]; exact horig)
    unfold handleDragEnd
    rw [happ]
    cases remoteOk with
    | true =>
      show (resolveMove updated p true)[j]? = some d
      show updated[j]? = some d
      rw [show updated = _ from hupd, List.getElem?_set_ne hne, hj]
    | false =>
      show (resolveMove updated p false)[j]? = some d
      show (p.snapshot.set p.dealIndex p.originalDeal)[j]? = some d
      rw [show p.snapshot = deals from hsnap, set_of_getElem? _ _ _ hget, hj]

/-- Witness for C5: moving deal 1 leaves deal 2's entry untouched. -/
theorem moveDeal_frame_other_deals_unchanged_witness :
    (handleDragEnd [dealLead1, dealLead2] dropLeadToQualified true).deals[1]? =
      some dealLead2 :=
  moveDeal_frame_other_deals_unchanged [dealLead1, dealLead2] dropLeadToQualified
    true 1 dealLead2 rfl (by decide)

/-- C6 counterexample: two failed moves of deal 1 out of the lead column,
one aimed at qualified and one at contacted, surface the *same* error value
(which names only the source stage "lead"), so the surfaced error is not
tagged with the attempted destination stage. -/
theorem surfaced_error_independent_of_destination :
    (handleDragEnd [dealLead1] dropLeadToQualified false).error =
      (handleDragEnd [dealLead1] dropLeadToContacted false).error ∧
    dropLeadToQualified.destination ≠ dropLeadToContacted.destination ∧
    (handleDragEnd [dealLead1] dropLeadToQualified false).error =
      some "Failed to move deal. Reverted to lead." := by
  decide

/-- C6 (amended): the transient user-facing error surfaced on a failed remote
call is tagged with the attempted *source* stage only — it is exactly the
string "Failed to move deal. Reverted to (source stage)." and does not carry
the destination stage. -/
theorem surfaced_error_names_source_stage (deals : List Deal) (result : DropResult)
    (hcall : (applyPhase deals result).isSome = true) :
    (handleDragEnd deals result false).error =
      some ("Failed to move deal. Reverted to "
        ++ statusId result.source.droppableId ++ ".") := by
  obtain ⟨pr, happ⟩ := Option.isSome_iff_exists.mp hcall
  obtain ⟨updated, p⟩ := pr
  obtain ⟨dest, hdest, hguard, hsnap, hold, hnew, hid, hidx, hget, hupd⟩ :=
    applyPhase_eq_some happ
  unfold handleDragEnd
  rw [happ]
  show some (surfacedError p.oldStatus) = _
  rw [show p.oldStatus = result.source.droppableId from hold]
  rfl

/-- Witness for C6 (amended) at the failed lead-to-qualified move. -/
theorem surfaced_error_names_source_stage_witness :
    (handleDragEnd [dealLead1] dropLeadToQualified false).error =
      some ("Failed to move deal. Reverted to " ++ statusId DealStatus.lead ++ ".") :=
  surfaced_error_names_source_stage [dealLead1] dropLeadToQualified (by decide)

/-- C7: when no deal in the store bears the dragged id, `handleDragEnd` is a
silent no-op for every destination: the store is unchanged, no remote call is
issued, no notification fires, and no error is raised. -/
theorem moveDeal_absent_id_silent_noop (deals : List Deal) (result : DropResult)
    (remoteOk : Bool) (h : ∀ d ∈ deals, d.id ≠ result.draggableId) :
    handleDragEnd deals result remoteOk = ⟨deals, 0, 0, none⟩ := by
  cases happ : applyPhase deals result with
  | none => unfold handleDragEnd; rw [happ]
  | some pr =>
    exfalso
    obtain ⟨dest, _, _, _, _, _, _, hidx, _, _⟩ := applyPhase_eq_some happ
    obtain ⟨a, ha, hpa⟩ := findIndexP_some hidx
    exact h a (List.getElem?_mem ha) (by simpa using hpa)

/-- Witness for C7: scenario 3 of the spec — empty store, `moveDeal(99, lead)`
is a silent no-op. -/
theorem moveDeal_absent_id_silent_noop_witness :
    handleDragEnd [] dropMissingDeal true = ⟨[], 0, 0, none⟩ :=
  moveDeal_absent_id_silent_noop [] dropMissingDeal true (by simp)

/-- C8: `fetchDeals` is all-or-nothing with respect to `replaceAll`: on
failure the store keeps its prior snapshot untouched and the retryable error
banner text is surfaced; on success the delivered collection replaces the
store wholesale. -/
theorem fetchDeals_failure_leaves_store_and_surfaces_error (prior : List Deal) :
    fetchDeals prior none =
      (prior, some "Failed to load deals. Please try again.", none) ∧
    ∀ data : List Deal, fetchDeals prior (some data) = (data, none, some data.length) :=
  ⟨rfl, fun _ => rfl⟩

/-- C9: the spec's concurrency guard is violated by the code. With deals 1
and 2 both in lead, fire move 1 (lead to qualified) and, before it resolves,
move 2 (lead to contacted): mid-flight the store shows both optimistic
writes, but when move 1's remote call then fails, its rollback installs the
*stale closure snapshot* (`[...deals]` captured at move 1's start), returning
the store to its original value — deal 2's status silently reverts from
contacted to lead, i.e. the second operation's write is discarded. -/
theorem interleaved_rollback_discards_second_write :
    midFlightScenario [dealLead1, dealLead2] dropLeadToQualified
        dropSecondLeadToContacted =
      some [{ dealLead1 with status := DealStatus.qualified, color := some "#6366f1" },
            { dealLead2 with status := DealStatus.contacted, color := some "#8b5cf6" }] ∧
    interleavedScenario [dealLead1, dealLead2] dropLeadToQualified
        dropSecondLeadToContacted =
      some [dealLead1, dealLead2] := by
  decide

/-- C10: a drag-end whose destination is null (dropped outside every column)
is a complete no-op: store unchanged, no remote call, no notification, no
error. -/
theorem null_destination_drop_is_noop (deals : List Deal) (result : DropResult)
    (remoteOk : Bool) (h : result.destination = none) :
    handleDragEnd deals result remoteOk = ⟨deals, 0, 0, none⟩ := by
  have happ : applyPhase deals result = none := by
    unfold applyPhase; rw [h]
  unfold handleDragEnd; rw [happ]

/-- Witness for C10 at a concrete cancelled drag. -/
theorem null_destination_drop_is_noop_witness :
    handleDragEnd [dealLead1] dropCancelled true = ⟨[dealLead1], 0, 0, none⟩ :=
  null_destination_drop_is_noop [dealLead1] dropCancelled true rfl
